import Mathlib

/-
Shallow embedding of augment_data.py (dataset augmentation for a donkeycar
driving dataset).  The augmentation core is embedded: the Transform Library
(flip, dark, sun, noise, create_circular_mask, clip_image_values) and the
Record Expander (augment_single_record).  The dataset I/O wrapper (augment,
argparse main) is out of scope per the specification.

Modelling conventions:
  - Stored images are numpy uint8 arrays; pixel values are modelled as Int
    together with the value-range invariant 0 ≤ v ≤ 255.  A uint8 dtype is
    modelled by the cast toU8 (reduction mod 256) and by that range.
  - Signed-width intermediates (int16 / int64 arrays) are plain Int values;
    the casts np.int16 / broadcasting upcasts are value-preserving on uint8
    data and are modelled as the identity.
  - Randomness is passed explicitly: every random draw consumed by a
    transform is a parameter (a Draws oracle for the Expander), constrained
    in theorems to the range the Python RNG produces.
  - Python exceptions (ValueError from an empty randint range, IndexError
    from slicing a 2-D array with three indices) are modelled as none in an
    Option result.
-/

namespace AugmentData

/-- Saturation step of clip_image_values: values above 255 become 255 and
values below 0 become 0 (img[img > 255] = 255; img[img < 0] = 0). -/
def clipv (x : Int) : Int := if x > 255 then 255 else if x < 0 then 0 else x

/-- Cast to numpy uint8: the value reduced modulo 256. -/
def toU8 (x : Int) : Int := x % 256

/-- An image array (the cam/image_array field).  i2 models a 2-D grayscale
array of shape (h, w); i3 models a 3-D RGB array of shape (h, w, 3).  The
pixel function carries the contents; indices i < h, j < w (and channel
k < 3) are the meaningful domain. -/
inductive Img where
  | i2 (h w : Nat) (pix : Nat → Nat → Int)
  | i3 (h w : Nat) (pix : Nat → Nat → Nat → Int)

/-- The numpy shape of the array. -/
def Img.shape : Img → List Nat
  | .i2 h w _ => [h, w]
  | .i3 h w _ => [h, w, 3]

/-- shape[0]. -/
def Img.hgt : Img → Nat
  | .i2 h _ _ => h
  | .i3 h _ _ => h

/-- shape[1]. -/
def Img.wid : Img → Nat
  | .i2 _ w _ => w
  | .i3 _ w _ => w

/-- Elementwise application, i.e. a broadcast numpy ufunc. -/
def Img.map (f : Int → Int) : Img → Img
  | .i2 h w p => .i2 h w (fun i j => f (p i j))
  | .i3 h w p => .i3 h w (fun i j k => f (p i j k))

/-- Every stored value of the array satisfies P. -/
def Img.allVals (P : Int → Prop) : Img → Prop
  | .i2 _ _ p => ∀ i j, P (p i j)
  | .i3 _ _ p => ∀ i j k, P (p i j k)

/-- The array is 3-D. -/
def Img.is3 : Img → Prop
  | .i2 _ _ _ => False
  | .i3 _ _ _ => True

/-- Two arrays have the same shape and agree element-for-element on the
meaningful index domain. -/
def ImgEqOn : Img → Img → Prop
  | .i2 h w p, .i2 h2 w2 q => h = h2 ∧ w = w2 ∧ ∀ i j, i < h → j < w → p i j = q i j
  | .i3 h w p, .i3 h2 w2 q => h = h2 ∧ w = w2 ∧ ∀ i j k, i < h → j < w → k < 3 → p i j k = q i j k
  | _, _ => False

/-- A tub record: the fields cam/image_array, user/angle and user/throttle.
Angle and throttle are floats in the source; the only arithmetic ever
applied to them is negation, which is exact on floats, so they are modelled
exactly over ℚ.  Remaining record fields are copied verbatim by every
transform and are not modelled. -/
structure Record where
  image : Img
  angle : ℚ
  throttle : ℚ

/-- The argparse configuration consumed by augment_single_record.  All
counts and amounts are Python ints: argparse applies no bounds check, so
negative values are representable. -/
structure Args where
  flip : Bool
  dark : Int
  dark_amount : Int
  sun : Int
  sun_size : Int
  noise : Int
  noise_amount : Int

/-- Explicit randomness oracle for one expansion: the draws consumed by the
n-th call of each randomized transform.  darkD n models random.randint(1,
amount) of the n-th dark call; sunD n models (int(random.random()*w),
int(random.random()*h)) of the n-th sun call; noiseD n i j k models the
per-pixel np.random.random_integers draw of the n-th noise call (the last
index is ignored on 2-D images). -/
structure Draws where
  darkD : Nat → Int
  sunD : Nat → Nat × Nat
  noiseD : Nat → Nat → Nat → Nat → Int

/-- clip_image_values(img): img[img > 255] = 255; img[img < 0] = 0;
return np.array(img, dtype=np.uint8). -/
def clip_image_values (img : Img) : Img := img.map (fun x => toU8 (clipv x))

/-- flip(record): deep copy, image replaced by record[CAM_IMG_ARRAY][:, ::-1, :]
(columns reversed), angle negated, throttle untouched.  The slice indexes
three axes, so on a 2-D image numpy raises IndexError, modelled as none. -/
def flip (record : Record) : Option Record :=
  match record.image with
  | .i2 _ _ _ => none
  | .i3 h w p =>
    some { record with image := Img.i3 h w (fun i j k => p i (w - 1 - j) k),
                       angle := -record.angle }

/-- dark(record, amount): shallow copy; np.array(image, dtype=np.int16) -
random.randint(1, amount), then clip_image_values, stored as the new image.
randint(1, amount) raises ValueError when amount < 1 (empty range), modelled
as none; otherwise draw is the scalar it returned (1 ≤ draw ≤ amount).  The
int16 cast is exact on uint8 data and is modelled as the identity. -/
def dark (record : Record) (amount : Int) (draw : Int) : Option Record :=
  if amount < 1 then none
  else some { record with image := clip_image_values (record.image.map (fun v => v - draw)) }

/-- img + noise_img: the per-pixel draw added to every element (the noise
array has the same shape as the image; on a 2-D image the draw is indexed
by row and column only). -/
def addNoise (img : Img) (nd : Nat → Nat → Nat → Int) : Img :=
  match img with
  | .i2 h w p => .i2 h w (fun i j => p i j + nd i j 0)
  | .i3 h w p => .i3 h w (fun i j k => p i j k + nd i j k)

/-- noise(record, amount): shallow copy;
np.random.random_integers(-amount, amount, img.shape) raises ValueError when
-amount > amount, i.e. when amount < 0, modelled as none; otherwise nd gives
the per-pixel draws (each in [-amount, amount]).  img + noise_img is computed
in a signed wide dtype, then clip_image_values, stored as the new image. -/
def noise (record : Record) (amount : Int) (nd : Nat → Nat → Nat → Int) : Option Record :=
  if amount < 0 then none
  else some { record with image := clip_image_values (addNoise record.image nd) }

/-- dist_from_center <= radius at offset (dx, dy) from the center, decided
exactly by squaring: sqrt(dx^2 + dy^2) ≤ r iff 0 ≤ r and dx^2 + dy^2 ≤ r^2.
The float64 sqrt is correctly rounded, so its comparison against an integer
radius agrees with the exact real comparison at image magnitudes. -/
def distLe (dx dy r : Int) : Bool := decide (0 ≤ r ∧ dx * dx + dy * dy ≤ r * r)

/-- create_circular_mask(h, w, center, radius) as a boolean pixel predicate
at (row i, col j), center = [cx, cy] with cx a column and cy a row index.
The default branches for center=None and radius=None are never taken by sun
and are not modelled. -/
def create_circular_mask (h w : Nat) (cx cy r : Int) : Nat → Nat → Bool :=
  fun i j => distLe ((j : Int) - cx) ((i : Int) - cy) r

/-- Modelled from the spec: the Gaussian weight table of
scipy.ndimage.gaussian_filter with sigma 5 (truncated at 4 sigma, so offsets
up to 20).  The real weights exp(-k^2/50) are floating point; they are
modelled scaled by 10^4 and rounded.  No theorem in this development depends
on the individual weight values. -/
def gw : Nat → Int
  | 0 => 10000
  | 1 => 9802
  | 2 => 9231
  | 3 => 8353
  | 4 => 7261
  | 5 => 6065
  | 6 => 4868
  | 7 => 3753
  | 8 => 2780
  | 9 => 1979
  | 10 => 1353
  | 11 => 889
  | 12 => 561
  | 13 => 340
  | 14 => 198
  | 15 => 111
  | 16 => 60
  | 17 => 31
  | 18 => 15
  | 19 => 7
  | 20 => 3
  | _ => 0

/-- Total kernel weight (normalization divisor). -/
def gwTotal : Int :=
  (List.range 41).foldl (fun acc k => acc + gw (Int.natAbs ((k : Int) - 20))) 0

/-- scipy boundary mode reflect: indices beyond the edge are reflected about
the edge (pattern d c b a | a b c d | d c b a). -/
def reflectIdx (n : Nat) (t : Int) : Nat :=
  if n = 0 then 0
  else
    let j := (t % (2 * (n : Int))).toNat
    if j < n then j else 2 * n - 1 - j

/-- One normalized 1-D correlation sample at position c: the weighted sum of
the reflected samples at offsets -20..20, divided by the total weight. -/
def gcorr (f : Int → Int) (c : Int) : Int :=
  ((List.range 41).foldl
    (fun acc k => acc + gw (Int.natAbs ((k : Int) - 20)) * f (c + (k : Int) - 20)) 0) / gwTotal

/-- Modelled from the spec: gaussian_filter(mask, sigma=5) from
scipy.ndimage (an external library, not repository code): a separable
Gaussian smoothing, applied along axis 0 then axis 1 with reflect boundary
handling; input and output are uint8 (the dtype is preserved), modelled by
the toU8 cast after each axis. -/
def gaussian_filter (h w : Nat) (m : Nat → Nat → Int) : Nat → Nat → Int :=
  let a0 : Nat → Nat → Int := fun i j => toU8 (gcorr (fun t => m (reflectIdx h t) j) (i : Int))
  fun i j => toU8 (gcorr (fun t => a0 i (reflectIdx w t)) (j : Int))

/-- sun(record, size): shallow copy; img = np.array(image, dtype=np.int16)
(exact on uint8 data, modelled as identity); a random center (sun_x, sun_y)
inside the image; mask = create_circular_mask(h, w, [sun_x, sun_y], size);
mask.dtype = np.uint8 reinterprets the bool bytes as 0/1; mask *= 200 (fits
in uint8, no wrap); mask = gaussian_filter(mask, sigma=5); the mask is added
in place to the single channel of a 2-D image, or to channels 0, 1, 2 of a
3-D image (the int16 sums stay far below the int16 bound on uint8 data);
finally clip_image_values is stored as the new image. -/
def sun (record : Record) (size : Int) (sun_x sun_y : Nat) : Record :=
  let h := record.image.hgt
  let w := record.image.wid
  let mask0 : Nat → Nat → Int :=
    fun i j => if create_circular_mask h w (sun_x : Int) (sun_y : Int) size i j then 1 else 0
  let mask1 : Nat → Nat → Int := fun i j => toU8 (200 * mask0 i j)
  let mask : Nat → Nat → Int := gaussian_filter h w mask1
  let summed : Img :=
    match record.image with
    | .i2 h2 w2 p => .i2 h2 w2 (fun i j => p i j + mask i j)
    | .i3 h2 w2 p => .i3 h2 w2 (fun i j k => p i j k + (if k < 3 then mask i j else 0))
  { record with image := clip_image_values summed }

/-- The Sun-spot transform as the specification words it: a boolean mask of
the pixels within Euclidean distance ≤ radius of the given center, converted
to intensity 200 inside and 0 outside, smoothed by the sigma-5 Gaussian
blur, added to every color channel (or to the single channel of a 2-D
grayscale image), and clipped to [0, 255]. -/
def sunSpec (record : Record) (radius : Int) (cx cy : Nat) : Record :=
  let h := record.image.hgt
  let w := record.image.wid
  let mask200 : Nat → Nat → Int :=
    fun i j => if distLe ((j : Int) - cx) ((i : Int) - cy) radius then 200 else 0
  let sm : Nat → Nat → Int := gaussian_filter h w mask200
  let out : Img :=
    match record.image with
    | .i2 h2 w2 p => .i2 h2 w2 (fun i j => clipv (p i j + sm i j))
    | .i3 h2 w2 p => .i3 h2 w2 (fun i j k => clipv (p i j k + sm i j))
  { record with image := out }

/-- The inner loop for _ in range(n): darkened_records.append(f(rec)) of one
stage, for one source rec; the call counter start threads the draw index.
A raised exception (none) aborts the whole stage. -/
def callsFor (g : Nat → Option Record) : Nat → Nat → Option (List Record)
  | _, 0 => some []
  | start, n + 1 =>
    match g start with
    | none => none
    | some v =>
      match callsFor g (start + 1) n with
      | none => none
      | some rest => some (v :: rest)

/-- The outer loop for rec in augmented_records of one stage: n fresh
variants of every record of the working set, in working-set order, each
call consuming the next draw index. -/
def stageAll (F : Nat → Record → Option Record) (n : Nat) :
    List Record → Nat → Option (List Record)
  | [], _ => some []
  | r :: rs, start =>
    match callsFor (fun i => F i r) start n with
    | none => none
    | some vs =>
      match stageAll F n rs (start + n) with
      | none => none
      | some rest => some (vs ++ rest)

/-- The first step of augment_single_record: augmented_records = [record],
then append flip(record) when args.flip is set. -/
def flipStage (record : Record) (a : Args) : Option (List Record) :=
  if a.flip then
    match flip record with
    | none => none
    | some f => some [record, f]
  else some [record]

/-- One augmented_records += stage step: run one transform stage over the
whole working set and append the new variants after it. -/
def bindStage (prev : Option (List Record)) (F : Nat → Record → Option Record)
    (n : Nat) : Option (List Record) :=
  match prev with
  | none => none
  | some recs =>
    match stageAll F n recs 0 with
    | none => none
    | some more => some (recs ++ more)

/-- augment_single_record(record, args): the Record Expander.  The working
set starts as [record] (plus the flipped copy when args.flip), then the
dark, sun and noise stages each append args.dark / args.sun / args.noise
fresh variants of every record already in the set (range of a negative
count is empty, hence toNat).  The draws oracle supplies every random draw
in call order. -/
def augment_single_record (record : Record) (args : Args) (d : Draws) :
    Option (List Record) :=
  bindStage
    (bindStage
      (bindStage (flipStage record args)
        (fun i rec => dark rec args.dark_amount (d.darkD i)) args.dark.toNat)
      (fun i rec => some (sun rec args.sun_size (d.sunD i).1 (d.sunD i).2)) args.sun.toNat)
    (fun i rec => noise rec args.noise_amount (d.noiseD i)) args.noise.toNat

/-- A constant all-128 RGB test pixel function. -/
def pix128 : Nat → Nat → Nat → Int := fun _ _ _ => 128

/-- A concrete 2x2x3 RGB record with every pixel 128, angle 0.4, throttle 1/2. -/
def rc0 : Record := ⟨Img.i3 2 2 pix128, 0.4, 1/2⟩

/-- A concrete 2x2 grayscale record. -/
def rc2 : Record := ⟨Img.i2 2 2 (fun _ _ => 128), 0.4, 1/2⟩

/-- A concrete draws oracle: dark always subtracts 5, sun centers at (0,0),
noise draws are all 0. -/
def d0 : Draws := ⟨fun _ => 5, fun _ => (0, 0), fun _ _ _ _ => 0⟩

/-- A concrete full configuration: flip on, one darken, one sun, one noise. -/
def argsAll : Args := ⟨true, 1, 20, 1, 30, 1, 10⟩

/-- clipv lands in [0, 255]. -/
theorem clipv_mem (x : Int) : 0 ≤ clipv x ∧ clipv x ≤ 255 := by
  unfold clipv
  split
  · omega
  · split <;> omega

/-- The uint8 cast is the identity after clipping. -/
theorem toU8_clipv (x : Int) : toU8 (clipv x) = clipv x := by
  have h := clipv_mem x
  unfold toU8
  omega

/-- Every value stored by clip_image_values lies in [0, 255]. -/
theorem clip_image_values_allVals (img : Img) :
    (clip_image_values img).allVals (fun v => 0 ≤ v ∧ v ≤ 255) := by
  cases img with
  | i2 h w p =>
    intro i j
    show 0 ≤ toU8 (clipv (p i j)) ∧ toU8 (clipv (p i j)) ≤ 255
    rw [toU8_clipv]
    exact clipv_mem (p i j)
  | i3 h w p =>
    intro i j k
    show 0 ≤ toU8 (clipv (p i j k)) ∧ toU8 (clipv (p i j k)) ≤ 255
    rw [toU8_clipv]
    exact clipv_mem (p i j k)

/-- Img.map preserves the shape. -/
theorem Img.shape_map (f : Int → Int) (img : Img) : (img.map f).shape = img.shape := by
  cases img <;> rfl

/-- clip_image_values preserves the shape. -/
theorem clip_image_values_shape (img : Img) : (clip_image_values img).shape = img.shape :=
  Img.shape_map _ img

/-- A 3-D image is an i3 constructor application. -/
theorem Img.is3_elim {img : Img} (h3 : img.is3) :
    ∃ h w p, img = Img.i3 h w p := by
  cases img with
  | i2 h w p => exact absurd h3 (by simp [Img.is3])
  | i3 h w p => exact ⟨h, w, p, rfl⟩

/-- When every call of one stage's inner loop succeeds, the loop returns
exactly n variants. -/
theorem callsFor_some_length (g : Nat → Option Record) (hg : ∀ i, ∃ v, g i = some v) :
    ∀ n start, ∃ l, callsFor g start n = some l ∧ l.length = n := by
  intro n
  induction n with
  | zero => intro start; exact ⟨[], rfl, rfl⟩
  | succ m ih =>
    intro start
    obtain ⟨v, hv⟩ := hg start
    obtain ⟨l, hl, hlen⟩ := ih (start + 1)
    refine ⟨v :: l, ?_, by simp [hlen]⟩
    simp [callsFor, hv, hl]

/-- When every transform call of a stage succeeds, the stage returns
exactly n variants per working-set record. -/
theorem stageAll_some_length (F : Nat → Record → Option Record) (n : Nat)
    (hF : ∀ i r, ∃ v, F i r = some v) :
    ∀ recs start, ∃ l, stageAll F n recs start = some l ∧ l.length = recs.length * n := by
  intro recs
  induction recs with
  | nil => intro start; exact ⟨[], rfl, by simp⟩
  | cons r rs ih =>
    intro start
    obtain ⟨vs, hvs, hvslen⟩ := callsFor_some_length (fun i => F i r) (fun i => hF i r) n start
    obtain ⟨rest, hrest, hrestlen⟩ := ih (start + n)
    refine ⟨vs ++ rest, ?_, ?_⟩
    · simp [stageAll, hvs, hrest]
    · simp [hvslen, hrestlen]
      ring

/-- A succeeding stage appends its variants after the working set and grows
it by the factor n + 1. -/
theorem bindStage_some (F : Nat → Record → Option Record) (n : Nat)
    (hF : ∀ i r, ∃ v, F i r = some v) (recs : List Record) :
    ∃ more, bindStage (some recs) F n = some (recs ++ more) ∧
      (recs ++ more).length = recs.length * (n + 1) := by
  obtain ⟨more, hm, hml⟩ := stageAll_some_length F n hF recs 0
  refine ⟨more, ?_, ?_⟩
  · simp [bindStage, hm]
  · simp [hml]
    ring

/-- When the amounts satisfy the configuration invariants, the Expander
succeeds, keeps the whole flip-stage working set in its output, and
multiplies the record count by (1 + count) per randomized stage. -/
theorem asr_some (r : Record) (a : Args) (d : Draws) (aug1 : List Record)
    (haug1 : flipStage r a = some aug1)
    (hda : 1 ≤ a.dark_amount) (hna : 0 ≤ a.noise_amount) :
    ∃ l, augment_single_record r a d = some l ∧ (∀ x ∈ aug1, x ∈ l) ∧
      l.length = aug1.length * (a.dark.toNat + 1) * (a.sun.toNat + 1) * (a.noise.toNat + 1) := by
  have hdark : ∀ i rec, ∃ v, dark rec a.dark_amount (d.darkD i) = some v := by
    intro i rec
    rw [dark, if_neg (by omega)]
    exact ⟨_, rfl⟩
  have hsun : ∀ i rec, ∃ v,
      (some (sun rec a.sun_size (d.sunD i).1 (d.sunD i).2) : Option Record) = some v :=
    fun i rec => ⟨_, rfl⟩
  have hnoise : ∀ i rec, ∃ v, noise rec a.noise_amount (d.noiseD i) = some v := by
    intro i rec
    rw [noise, if_neg (by omega)]
    exact ⟨_, rfl⟩
  obtain ⟨m1, hm1, hl1⟩ := bindStage_some
    (fun i rec => dark rec a.dark_amount (d.darkD i)) a.dark.toNat hdark aug1
  obtain ⟨m2, hm2, hl2⟩ := bindStage_some
    (fun i rec => (some (sun rec a.sun_size (d.sunD i).1 (d.sunD i).2) : Option Record))
    a.sun.toNat hsun (aug1 ++ m1)
  obtain ⟨m3, hm3, hl3⟩ := bindStage_some
    (fun i rec => noise rec a.noise_amount (d.noiseD i)) a.noise.toNat hnoise ((aug1 ++ m1) ++ m2)
  refine ⟨((aug1 ++ m1) ++ m2) ++ m3, ?_, ?_, ?_⟩
  · rw [augment_single_record, haug1, hm1, hm2, hm3]
  · intro x hx
    exact List.mem_append_left _ (List.mem_append_left _ (List.mem_append_left _ hx))
  · rw [hl3, hl2, hl1]

/-- clipv is the identity on values already in [0, 255]. -/
theorem clipv_of_mem (x : Int) (h1 : 0 ≤ x) (h2 : x ≤ 255) : clipv x = x := by
  unfold clipv
  split
  · omega
  · split
    · omega
    · rfl

/-- The uint8 cast is the identity on values in [0, 255]. -/
theorem toU8_of_mem (x : Int) (h1 : 0 ≤ x) (h2 : x ≤ 255) : toU8 x = x := by
  unfold toU8
  omega

/-- The full clip-and-cast of one stored value is the identity on uint8 data. -/
theorem toU8_clipv_of_mem (x : Int) (h1 : 0 ≤ x) (h2 : x ≤ 255) : toU8 (clipv x) = x := by
  rw [clipv_of_mem x h1 h2, toU8_of_mem x h1 h2]

/-- Claim C1 (amended): for every augmentation configuration obeying the
spec invariants (counts ≥ 0, darken_max_amount > 0, noise_amount ≥ 0) and
every source record whose image is 3-D whenever flip is enabled, the
Expander returns exactly
(flip?2:1)·(1+darken_count)·(1+sun_count)·(1+noise_count) records with the
source record itself included; when flip is enabled on a 2-D record the
expansion fails inside flip (IndexError) and returns no records at all. -/
theorem c1_expander_count (r : Record) (a : Args) (d : Draws)
    (hf : a.flip = true → r.image.is3)
    (hd : 0 ≤ a.dark) (hs : 0 ≤ a.sun) (hn : 0 ≤ a.noise)
    (hda : 1 ≤ a.dark_amount) (hna : 0 ≤ a.noise_amount) :
    (∃ l, augment_single_record r a d = some l ∧ r ∈ l ∧
      (l.length : Int) =
        (if a.flip then 2 else 1) * (1 + a.dark) * (1 + a.sun) * (1 + a.noise)) ∧
    (∀ (hh ww : Nat) (p2 : Nat → Nat → Int) (ang t : ℚ) (a2 : Args) (d2 : Draws),
      a2.flip = true → augment_single_record ⟨Img.i2 hh ww p2, ang, t⟩ a2 d2 = none) := by
  have h2d : ∀ (hh ww : Nat) (p2 : Nat → Nat → Int) (ang t : ℚ) (a2 : Args) (d2 : Draws),
      a2.flip = true → augment_single_record ⟨Img.i2 hh ww p2, ang, t⟩ a2 d2 = none := by
    intro hh ww p2 ang t a2 d2 hfl2
    have hfs : flipStage ⟨Img.i2 hh ww p2, ang, t⟩ a2 = none := by
      simp [flipStage, hfl2, flip]
    rw [augment_single_record, hfs]
    rfl
  refine ⟨?_, h2d⟩
  obtain ⟨aug1, haug1, hmem1, hlen1⟩ :
      ∃ aug1, flipStage r a = some aug1 ∧ r ∈ aug1 ∧
        aug1.length = if a.flip then 2 else 1 := by
    cases hfl : a.flip with
    | false => exact ⟨[r], by simp [flipStage, hfl], by simp, by simp [hfl]⟩
    | true =>
      obtain ⟨hh, ww, p, him⟩ := Img.is3_elim (hf hfl)
      refine ⟨[r, { r with image := Img.i3 hh ww (fun i j k => p i (ww - 1 - j) k),
                           angle := -r.angle }], ?_, by simp, by simp [hfl]⟩
      simp [flipStage, hfl, flip, him]
  obtain ⟨l, hl, hsub, hlen⟩ := asr_some r a d aug1 haug1 hda hna
  refine ⟨l, hl, hsub r hmem1, ?_⟩
  rw [hlen, hlen1]
  have h1 : ((a.dark.toNat : Int)) = a.dark := Int.toNat_of_nonneg hd
  have h2 : ((a.sun.toNat : Int)) = a.sun := Int.toNat_of_nonneg hs
  have h3 : ((a.noise.toNat : Int)) = a.noise := Int.toNat_of_nonneg hn
  cases hfl : a.flip with
  | false =>
    simp only [if_neg (by simp : ¬ (false = true))]
    push_cast [h1, h2, h3]
    ring
  | true =>
    simp only [if_pos rfl]
    push_cast [h1, h2, h3]
    ring

/-- Witness for C1 at a concrete record, configuration and draw oracle. -/
theorem c1_expander_count_witness :
    ∃ l, augment_single_record rc0 argsAll d0 = some l ∧ rc0 ∈ l ∧
      (l.length : Int) = (if argsAll.flip then 2 else 1) * (1 + argsAll.dark) *
        (1 + argsAll.sun) * (1 + argsAll.noise) :=
  (c1_expander_count rc0 argsAll d0 (fun _ => trivial)
    (by decide) (by decide) (by decide) (by decide) (by decide)).1

/-- Counterexample to C1 as stated: a concrete 2-D grayscale record with a
valid flip-enabled configuration (flip on, all counts 0), for which the
claimed count is (flip?2:1)·1·1·1 = 2: the Expander raises IndexError
inside flip and returns no records at all, so no output list of the claimed
length exists. -/
theorem c1_counterexample :
    augment_single_record rc2 ⟨true, 0, 20, 0, 30, 0, 10⟩ d0 = none ∧
    ¬ ∃ l, augment_single_record rc2 ⟨true, 0, 20, 0, 30, 0, 10⟩ d0 = some l ∧
      (l.length : Int) = 2 := by
  refine ⟨rfl, ?_⟩
  rintro ⟨l, hl, -⟩
  exact Option.noConfusion
    ((rfl : augment_single_record rc2 ⟨true, 0, 20, 0, 30, 0, 10⟩ d0 = none).symm.trans hl)

/-- Claim C3 (amended): on every record whose image is 3-D, flip
deterministically returns exactly one record with the columns-reversed
image, the negated steering angle and the unchanged throttle, and with
flip=true and all counts 0 a source record of angle 0.4 expands to exactly
the original record followed by the flipped record of angle -0.4 and
mirrored image; on a record whose image is 2-D, flip raises IndexError and
returns no record. -/
theorem c3_flip_behavior (hh ww : Nat) (p : Nat → Nat → Nat → Int) (t : ℚ)
    (a : Args) (d : Draws) (hfl : a.flip = true)
    (hd : a.dark = 0) (hs : a.sun = 0) (hn : a.noise = 0) :
    (∀ (r : Record) (h2 w2 : Nat) (p2 : Nat → Nat → Nat → Int), r.image = Img.i3 h2 w2 p2 →
      flip r = some { r with image := Img.i3 h2 w2 (fun i j k => p2 i (w2 - 1 - j) k),
                             angle := -r.angle }) ∧
    (∀ (r : Record) (h2 w2 : Nat) (q : Nat → Nat → Int), r.image = Img.i2 h2 w2 q →
      flip r = none) ∧
    augment_single_record ⟨Img.i3 hh ww p, 0.4, t⟩ a d =
      some [⟨Img.i3 hh ww p, 0.4, t⟩,
            ⟨Img.i3 hh ww (fun i j k => p i (ww - 1 - j) k), -(0.4 : ℚ), t⟩] := by
  refine ⟨?_, ?_, ?_⟩
  · intro r h2 w2 p2 him
    simp [flip, him]
  · intro r h2 w2 q him
    simp [flip, him]
  · rw [augment_single_record, hd, hs, hn]
    simp [flipStage, hfl, flip, bindStage, stageAll, callsFor]

/-- Witness for C3 (amended) at a concrete record and configuration. -/
theorem c3_flip_behavior_witness :
    (∀ (r : Record) (h2 w2 : Nat) (p2 : Nat → Nat → Nat → Int), r.image = Img.i3 h2 w2 p2 →
      flip r = some { r with image := Img.i3 h2 w2 (fun i j k => p2 i (w2 - 1 - j) k),
                             angle := -r.angle }) ∧
    (∀ (r : Record) (h2 w2 : Nat) (q : Nat → Nat → Int), r.image = Img.i2 h2 w2 q →
      flip r = none) ∧
    augment_single_record ⟨Img.i3 2 2 pix128, 0.4, 1/2⟩ ⟨true, 0, 20, 0, 30, 0, 10⟩ d0 =
      some [⟨Img.i3 2 2 pix128, 0.4, 1/2⟩,
            ⟨Img.i3 2 2 (fun i j k => pix128 i (2 - 1 - j) k), -(0.4 : ℚ), 1/2⟩] :=
  c3_flip_behavior 2 2 pix128 (1/2) ⟨true, 0, 20, 0, 30, 0, 10⟩ d0 rfl rfl rfl rfl

/-- Counterexample to C3 as stated: a concrete 2-D record with steering
angle 0.4, on which flip returns no record at all (numpy IndexError), and
the flip-only expansion of that source returns nothing instead of the
claimed 2 records. -/
theorem c3_counterexample :
    rc2.angle = 0.4 ∧ (¬ ∃ r2, flip rc2 = some r2) ∧
    augment_single_record rc2 ⟨true, 0, 20, 0, 30, 0, 10⟩ d0 = none := by
  refine ⟨rfl, ?_, rfl⟩
  rintro ⟨r2, hr2⟩
  exact Option.noConfusion ((rfl : flip rc2 = none).symm.trans hr2)

/-- Claim C4 (amended): flip is an involution on records whose image is
3-D: flipping twice yields a record whose image agrees with the original
element-for-element and whose steering angle is the original angle; on a
record whose image is 2-D the first flip already raises IndexError and
yields no record to flip again. -/
theorem c4_flip_involution (hh ww : Nat) (p : Nat → Nat → Nat → Int) (ang t : ℚ) :
    (∃ r1 r2, flip ⟨Img.i3 hh ww p, ang, t⟩ = some r1 ∧ flip r1 = some r2 ∧
      ImgEqOn r2.image (Img.i3 hh ww p) ∧ r2.angle = ang) ∧
    (∀ (h2 w2 : Nat) (q : Nat → Nat → Int) (ang2 t2 : ℚ),
      flip ⟨Img.i2 h2 w2 q, ang2, t2⟩ = none) := by
  refine ⟨⟨_, _, rfl, rfl, ?_, ?_⟩, ?_⟩
  · refine ⟨rfl, rfl, ?_⟩
    intro i j k hi hj hk
    have hjj : ww - 1 - (ww - 1 - j) = j := by omega
    show p i (ww - 1 - (ww - 1 - j)) k = p i j k
    rw [hjj]
  · show -(-ang) = ang
    exact neg_neg ang
  · intro h2 w2 q ang2 t2
    rfl

/-- Claim C5 (amended): every transform preserves the image shape on 3-D
records; dark, noise and sun also preserve it on 2-D records, but flip
raises an IndexError on a 2-D image (its slice indexes three axes) and
returns no record at all. -/
theorem c5_shape_preservation (hh ww : Nat) (p3 : Nat → Nat → Nat → Int)
    (p2 : Nat → Nat → Int) (ang t : ℚ) (r : Record) (amount draw size : Int)
    (nd : Nat → Nat → Nat → Int) (sx sy : Nat) :
    (∃ r1, flip ⟨Img.i3 hh ww p3, ang, t⟩ = some r1 ∧
        r1.image.shape = (Img.i3 hh ww p3).shape) ∧
    flip ⟨Img.i2 hh ww p2, ang, t⟩ = none ∧
    (∀ r2, dark r amount draw = some r2 → r2.image.shape = r.image.shape) ∧
    (∀ r2, noise r amount nd = some r2 → r2.image.shape = r.image.shape) ∧
    (sun r size sx sy).image.shape = r.image.shape := by
  refine ⟨⟨_, rfl, rfl⟩, rfl, ?_, ?_, ?_⟩
  · intro r2 h2
    rw [dark] at h2
    split at h2
    · exact Option.noConfusion h2
    · injection h2 with h3
      subst h3
      show (clip_image_values (r.image.map (fun v => v - draw))).shape = r.image.shape
      rw [clip_image_values_shape]
      exact Img.shape_map _ _
  · intro r2 h2
    rw [noise] at h2
    split at h2
    · exact Option.noConfusion h2
    · injection h2 with h3
      subst h3
      show (clip_image_values (addNoise r.image nd)).shape = r.image.shape
      rw [clip_image_values_shape]
      cases r.image <;> rfl
  · obtain ⟨img, a2, t2⟩ := r
    cases img with
    | i2 h2 w2 pp => rfl
    | i3 h2 w2 pp => rfl

/-- Counterexample to C5 as stated: on a concrete 2-D uint8 image the flip
transform returns no record (numpy raises IndexError), so it does not
return an output record of equal shape. -/
theorem c5_counterexample : rc2.image.shape = [2, 2] ∧ flip rc2 = none := ⟨rfl, rfl⟩

/-- Witness for C5 at concrete records and transforms. -/
theorem c5_shape_preservation_witness :
    ∃ r2, dark rc0 20 5 = some r2 ∧ r2.image.shape = rc0.image.shape := by
  obtain ⟨-, -, hdark, -, -⟩ :=
    c5_shape_preservation 2 2 pix128 (fun _ _ => 128) 0.4 (1/2) rc0 20 5 30
      (fun _ _ _ => 0) 0 0
  exact ⟨_, rfl, hdark _ rfl⟩

/-- Claim C8: dark, noise and sun leave steering angle and throttle equal to
those of their immediate input record. -/
theorem c8_labels_unchanged (r : Record) (amount draw size : Int)
    (nd : Nat → Nat → Nat → Int) (sx sy : Nat) :
    (∀ r2, dark r amount draw = some r2 → r2.angle = r.angle ∧ r2.throttle = r.throttle) ∧
    (∀ r2, noise r amount nd = some r2 → r2.angle = r.angle ∧ r2.throttle = r.throttle) ∧
    (sun r size sx sy).angle = r.angle ∧ (sun r size sx sy).throttle = r.throttle := by
  refine ⟨?_, ?_, rfl, rfl⟩
  · intro r2 h2
    rw [dark] at h2
    split at h2
    · exact Option.noConfusion h2
    · injection h2 with h3
      subst h3
      exact ⟨rfl, rfl⟩
  · intro r2 h2
    rw [noise] at h2
    split at h2
    · exact Option.noConfusion h2
    · injection h2 with h3
      subst h3
      exact ⟨rfl, rfl⟩

/-- Witness for C8 at a concrete record and concrete transform calls. -/
theorem c8_labels_unchanged_witness :
    ∃ r2, dark rc0 20 5 = some r2 ∧ r2.angle = rc0.angle ∧ r2.throttle = rc0.throttle := by
  obtain ⟨hdark, -, -⟩ := c8_labels_unchanged rc0 20 5 30 (fun _ _ _ => 0) 0 0
  exact ⟨_, rfl, hdark _ rfl⟩

/-- Claim C9 (amended): noise with noise_amount = 0 returns, without error, a
record whose image values and labels are unchanged; dark with
darken_max_amount = 0 is not a no-op: random.randint(1, 0) has an empty
range and raises ValueError, so no record is returned. -/
theorem c9_zero_amounts (r : Record) (nd : Nat → Nat → Nat → Int) (draw : Int)
    (hwf : r.image.allVals (fun v => 0 ≤ v ∧ v ≤ 255))
    (hnd : ∀ i j k, nd i j k = 0) :
    (∃ r2, noise r 0 nd = some r2 ∧ ImgEqOn r2.image r.image ∧
      r2.angle = r.angle ∧ r2.throttle = r.throttle) ∧
    dark r 0 draw = none := by
  constructor
  · obtain ⟨img, a2, t2⟩ := r
    refine ⟨{ image := clip_image_values (addNoise img nd), angle := a2, throttle := t2 },
      ?_, ?_, rfl, rfl⟩
    · rw [noise, if_neg (by norm_num)]
    · show ImgEqOn (clip_image_values (addNoise img nd)) img
      cases img with
      | i2 h w p =>
        refine ⟨rfl, rfl, ?_⟩
        intro i j hi hj
        show toU8 (clipv (p i j + nd i j 0)) = p i j
        rw [hnd i j 0, add_zero]
        exact toU8_clipv_of_mem _ (hwf i j).1 (hwf i j).2
      | i3 h w p =>
        refine ⟨rfl, rfl, ?_⟩
        intro i j k hi hj hk
        show toU8 (clipv (p i j k + nd i j k)) = p i j k
        rw [hnd i j k, add_zero]
        exact toU8_clipv_of_mem _ (hwf i j k).1 (hwf i j k).2
  · rfl

/-- Counterexample to C9 as stated: dark with amount 0 on a concrete record
returns no record at all instead of the unchanged input. -/
theorem c9_counterexample : dark rc0 0 7 = none := rfl

/-- Witness for C9 at a concrete record and zero draws. -/
theorem c9_zero_amounts_witness :
    (∃ r2, noise rc0 0 (fun _ _ _ => 0) = some r2 ∧ ImgEqOn r2.image rc0.image ∧
      r2.angle = rc0.angle ∧ r2.throttle = rc0.throttle) ∧
    dark rc0 0 3 = none :=
  c9_zero_amounts rc0 (fun _ _ _ => 0) 3 (fun _ _ _ => by norm_num [pix128, rc0])
    (fun _ _ _ => rfl)

/-- flipStage reads only the flip field of the configuration. -/
theorem flipStage_flip_only (r : Record) (a b : Args) (hfl : a.flip = b.flip) :
    flipStage r a = flipStage r b := by
  unfold flipStage
  rw [hfl]

/-- Claim C10 (amended): negative counts are not rejected: the command line
performs no validation and Python range() over a negative count is empty, so
the Expander treats every negative count exactly as the count 0 and the run
proceeds normally. -/
theorem c10_negative_counts_as_zero (r : Record) (a : Args) (d : Draws) :
    augment_single_record r a d =
      augment_single_record r
        { a with dark := max a.dark 0, sun := max a.sun 0, noise := max a.noise 0 } d := by
  obtain ⟨fl, dk, dka, sn, sns, ns, nsa⟩ := a
  have h1 : (max dk 0).toNat = dk.toNat := by omega
  have h2 : (max sn 0).toNat = sn.toNat := by omega
  have h3 : (max ns 0).toNat = ns.toNat := by omega
  have hfs : flipStage r ⟨fl, dk, dka, sn, sns, ns, nsa⟩ =
      flipStage r ⟨fl, max dk 0, dka, max sn 0, sns, max ns 0, nsa⟩ :=
    flipStage_flip_only r _ _ rfl
  simp only [augment_single_record, h1, h2, h3, hfs]

/-- Counterexample to C10 as stated: with a configuration whose counts are
all negative, the Expander is invoked and completes normally (no
configuration error is reported anywhere in the program), returning the
source record unchanged. -/
theorem c10_counterexample :
    augment_single_record rc0 ⟨false, -1, 20, -2, 30, -3, 10⟩ d0 = some [rc0] := rfl

/-- Claim C2: every image produced by dark, sun or noise has all elements in
[0, 255]: the clip runs on the signed-width intermediate after the
additive/subtractive step, before the result is stored, and the stored
array is uint8 (modelled as every stored value lying in the uint8 range
after the toU8 cast). -/
theorem c2_outputs_clipped (r : Record) (amount draw size : Int)
    (nd : Nat → Nat → Nat → Int) (sx sy : Nat) :
    (∀ r2, dark r amount draw = some r2 →
      r2.image.allVals (fun v => 0 ≤ v ∧ v ≤ 255)) ∧
    (∀ r2, noise r amount nd = some r2 →
      r2.image.allVals (fun v => 0 ≤ v ∧ v ≤ 255)) ∧
    (sun r size sx sy).image.allVals (fun v => 0 ≤ v ∧ v ≤ 255) := by
  refine ⟨?_, ?_, ?_⟩
  · intro r2 h2
    rw [dark] at h2
    split at h2
    · exact Option.noConfusion h2
    · injection h2 with h3
      subst h3
      exact clip_image_values_allVals _
  · intro r2 h2
    rw [noise] at h2
    split at h2
    · exact Option.noConfusion h2
    · injection h2 with h3
      subst h3
      exact clip_image_values_allVals _
  · exact clip_image_values_allVals _

/-- Witness for C2 at a concrete record and a concrete darken call. -/
theorem c2_outputs_clipped_witness :
    ∃ r2, dark rc0 20 5 = some r2 ∧ r2.image.allVals (fun v => 0 ≤ v ∧ v ≤ 255) := by
  obtain ⟨hdark, -, -⟩ := c2_outputs_clipped rc0 20 5 30 (fun _ _ _ => 0) 0 0
  exact ⟨_, rfl, hdark _ rfl⟩

/-- Claim C6: dark subtracts its one random scalar draw (1 ≤ draw ≤ 20 when
darken_max_amount = 20) from every pixel and clips; with flip off,
darken_count = 1 and the other counts 0, a source record whose pixels are
all 128 expands to exactly the unmodified source record followed by one
darkened record whose every pixel lies in [108, 127]. -/
theorem c6_darken_scenario (hh ww : Nat) (p : Nat → Nat → Nat → Int) (ang t : ℚ)
    (sns nsa : Int) (d : Draws)
    (hp : ∀ i j k, p i j k = 128)
    (hdraw1 : 1 ≤ d.darkD 0) (hdraw2 : d.darkD 0 ≤ 20) :
    (∀ (r : Record) (amount draw : Int), 1 ≤ amount →
      dark r amount draw =
        some { r with image := clip_image_values (r.image.map (fun v => v - draw)) }) ∧
    ∃ r2, augment_single_record ⟨Img.i3 hh ww p, ang, t⟩ ⟨false, 1, 20, 0, sns, 0, nsa⟩ d =
        some [⟨Img.i3 hh ww p, ang, t⟩, r2] ∧
      r2.image.allVals (fun v => 108 ≤ v ∧ v ≤ 127) := by
  constructor
  · intro r amount draw ha
    rw [dark, if_neg (by omega)]
  · refine ⟨⟨Img.i3 hh ww (fun i j k => toU8 (clipv (p i j k - d.darkD 0))), ang, t⟩, rfl, ?_⟩
    intro i j k
    show 108 ≤ toU8 (clipv (p i j k - d.darkD 0)) ∧ toU8 (clipv (p i j k - d.darkD 0)) ≤ 127
    rw [hp i j k, clipv_of_mem _ (by omega) (by omega), toU8_of_mem _ (by omega) (by omega)]
    omega

/-- Witness for C6 at a concrete all-128 record and the draw 5. -/
theorem c6_darken_scenario_witness :
    ∃ r2, augment_single_record ⟨Img.i3 2 2 pix128, 0.4, 1/2⟩ ⟨false, 1, 20, 0, 30, 0, 10⟩ d0 =
        some [⟨Img.i3 2 2 pix128, 0.4, 1/2⟩, r2] ∧
      r2.image.allVals (fun v => 108 ≤ v ∧ v ≤ 127) :=
  (c6_darken_scenario 2 2 pix128 0.4 (1/2) 30 10 d0 (fun _ _ _ => rfl)
    (by decide) (by decide)).2

/-- Claim C7: the sun transform as implemented (uniformly random in-bounds
center, circular Euclidean-distance mask, converted to 200 inside / 0
outside, smoothed by the sigma-5 Gaussian blur, added to every channel of a
3-D image or to the single channel of a 2-D one, clipped to [0, 255])
agrees element-for-element with the specification reading sunSpec, with
labels untouched.  The random center is modelled as the in-bounds
parameters sx < width, sy < height. -/
theorem c7_sun_refines_spec (r : Record) (size : Int) (sx sy : Nat)
    (hx : sx < r.image.wid) (hy : sy < r.image.hgt) :
    ImgEqOn (sun r size sx sy).image (sunSpec r size sx sy).image ∧
    (sun r size sx sy).angle = r.angle ∧ (sun r size sx sy).throttle = r.throttle := by
  refine ⟨?_, rfl, rfl⟩
  have hmask : ∀ h w : Nat,
      (fun i j => toU8 (200 *
        (if create_circular_mask h w (sx : Int) (sy : Int) size i j then 1 else 0))) =
      (fun i j : Nat =>
        if distLe ((j : Int) - (sx : Int)) ((i : Int) - (sy : Int)) size then 200 else 0) := by
    intro h w
    funext i j
    by_cases hb : distLe ((j : Int) - (sx : Int)) ((i : Int) - (sy : Int)) size = true
    · simp only [create_circular_mask, hb, if_true]
      decide
    · simp only [create_circular_mask, hb, if_false]
      decide
  obtain ⟨img, a2, t2⟩ := r
  cases img with
  | i2 h w p =>
    refine ⟨rfl, rfl, ?_⟩
    intro i j hi hj
    show toU8 (clipv (p i j + gaussian_filter h w
        (fun i2x j2x => toU8 (200 *
          (if create_circular_mask h w (sx : Int) (sy : Int) size i2x j2x then 1 else 0))) i j)) =
      clipv (p i j + gaussian_filter h w
        (fun i2x j2x : Nat =>
          if distLe ((j2x : Int) - (sx : Int)) ((i2x : Int) - (sy : Int)) size then 200 else 0) i j)
    rw [hmask h w, toU8_clipv]
  | i3 h w p =>
    refine ⟨rfl, rfl, ?_⟩
    intro i j k hi hj hk
    show toU8 (clipv (p i j k + (if k < 3 then gaussian_filter h w
        (fun i2x j2x => toU8 (200 *
          (if create_circular_mask h w (sx : Int) (sy : Int) size i2x j2x then 1 else 0))) i j else 0))) =
      clipv (p i j k + gaussian_filter h w
        (fun i2x j2x : Nat =>
          if distLe ((j2x : Int) - (sx : Int)) ((i2x : Int) - (sy : Int)) size then 200 else 0) i j)
    rw [if_pos hk, hmask h w, toU8_clipv]

/-- Witness for C7 at a concrete record and in-bounds center. -/
theorem c7_sun_refines_spec_witness :
    ImgEqOn (sun rc0 30 0 0).image (sunSpec rc0 30 0 0).image ∧
    (sun rc0 30 0 0).angle = rc0.angle ∧ (sun rc0 30 0 0).throttle = rc0.throttle :=
  c7_sun_refines_spec rc0 30 0 0 (by decide) (by decide)

/-- Witness for C4 (amended) at a concrete record. -/
theorem c4_flip_involution_witness :
    ∃ r1 r2, flip ⟨Img.i3 2 2 pix128, 0.4, 1/2⟩ = some r1 ∧ flip r1 = some r2 ∧
      ImgEqOn r2.image (Img.i3 2 2 pix128) ∧ r2.angle = 0.4 :=
  (c4_flip_involution 2 2 pix128 0.4 (1/2)).1

/-- Counterexample to C4 as stated: on a concrete 2-D record the first flip
already returns no record, so applying flip twice yields no record whose
image could equal the original. -/
theorem c4_counterexample : ¬ ∃ r1 r2, flip rc2 = some r1 ∧ flip r1 = some r2 := by
  rintro ⟨r1, r2, h1, -⟩
  exact Option.noConfusion ((rfl : flip rc2 = none).symm.trans h1)

/-- Witness for C10 (amended) at a concrete record and configuration. -/
theorem c10_negative_counts_as_zero_witness :
    augment_single_record rc0 ⟨false, -1, 20, -2, 30, -3, 10⟩ d0 =
      augment_single_record rc0
        ⟨false, max (-1) 0, 20, max (-2) 0, 30, max (-3) 0, 10⟩ d0 :=
  c10_negative_counts_as_zero rc0 ⟨false, -1, 20, -2, 30, -3, 10⟩ d0

end AugmentData
